import Mathlib

/-!
Verification development for the Nashville dispatch monitor
(`src/db.js`, `src/dispatch-monitor.js`).

The JavaScript source is shallowly embedded: JS strings become `List Char`
(one entry per code point), JSON/feed values that may be absent become
explicit `undef`/`null` constructors, the SQLite `incidents` table becomes a
list of rows, and each prepared statement becomes a function on that list.
Fallible operations (better-sqlite3 raises an error when a named parameter
referenced by a statement is missing from the binding object, or when a
bound value is `undefined`) return `Except String _`.
-/

namespace Dispatch

/-- JS strings are modelled as lists of characters (one per code point). -/
abbrev JStr := List Char

/-- An incident identifier as it appears in the feed: the spec allows it to be
an integer or a string (`id`: integer or string). -/
inductive JsId where
  | int (n : Int)
  | str (s : JStr)
deriving DecidableEq

/-- A feed attribute value: absent from the attribute object (`undefined` in
JS), JSON `null`, or a string. -/
inductive JField where
  | undef
  | null
  | str (s : JStr)
deriving DecidableEq

/-- A JS number restricted to the values produced by coercing snapshot keys:
an integer or `NaN`. -/
inductive JsNum where
  | num (n : Int)
  | nan
deriving DecidableEq

/-- Decimal digits of a natural number, least significant first.  The first
argument is fuel (structural recursion so that the kernel can evaluate it);
callers pass fuel `n + 1`, which always suffices. -/
def natToRevCharsAux : Nat → Nat → List Char
  | 0, _ => []
  | fuel + 1, n =>
    if n < 10 then [Nat.digitChar n]
    else Nat.digitChar (n % 10) :: natToRevCharsAux fuel (n / 10)

/-- Decimal numeral of a natural number (models ECMAScript `ToString` of a
non-negative integer, as used for object property keys and template
interpolation). -/
def natChars (n : Nat) : List Char := (natToRevCharsAux (n + 1) n).reverse

/-- Decimal numeral of an integer (models ECMAScript `ToString` of an integer-
valued number). -/
def intChars : Int → List Char
  | .ofNat m => natChars m
  | .negSucc m => '-' :: natChars (m + 1)

/-- ECMAScript property-key coercion of an identifier: integers render as
their decimal numeral, strings are used as-is.  This is the key under which
`dispatch-monitor.js` stores `newState.incidents[i.ObjectId] = i`. -/
def JsId.toKey : JsId → JStr
  | .int n => intChars n
  | .str s => s

/-- Numeric value of a decimal digit character. -/
def digitVal (c : Char) : Nat := c.toNat - 48

/-- Parse an unsigned decimal numeral; `none` when the string is empty or has
a non-digit. -/
def parseNatChars (cs : JStr) : Option Nat :=
  if cs ≠ [] ∧ cs.all Char.isDigit then
    some (cs.foldl (fun n c => n * 10 + digitVal c) 0)
  else none

/-- ECMAScript `ToNumber` on the strings that occur as snapshot keys
(`Object.keys(state.incidents).map(Number)` in `dispatch-monitor.js`):
the empty string converts to `0`, an optionally minus-signed decimal numeral
converts to that integer, and any other string converts to `NaN`. -/
def jsToNumber (cs : JStr) : JsNum :=
  match cs with
  | [] => .num 0
  | c :: rest =>
    if c = '-' then
      match parseNatChars rest with
      | some m => .num (-(m : Int))
      | none => .nan
    else
      match parseNatChars (c :: rest) with
      | some m => .num (m : Int)
      | none => .nan

/-- Property-key coercion of a JS number (`state.incidents[id]` with a number
`id`): its decimal rendering, `NaN` rendering to `"NaN"`. -/
def jsNumKey : JsNum → JStr
  | .num n => intChars n
  | .nan => "NaN".toList

/-- getHour from `src/db.js` lines 19–23: the hour-of-day of `timestamp` in
Central local time.  `toLocaleString` with `hour12: false` uses the h23 hour
cycle (ECMA-402), so the rendered-and-parsed value is the local hour 0–23;
the zone's UTC offset at that instant (in minutes, negative west of
Greenwich) is passed explicitly as `tzOffsetMin`, and the local hour is
`⌊localMs / 3600000⌋ mod 24`. -/
def getHour (timestamp : Int) (tzOffsetMin : Int) : Int :=
  Int.emod (Int.ediv (timestamp + tzOffsetMin * 60000) 3600000) 24

/-- JS whitespace test, used for both `\s` in the house-number regex and
`String.prototype.trim`. -/
def isWs (c : Char) : Bool := c.isWhitespace

/-- JS `trim()`: drop whitespace from both ends. -/
def trimChars (cs : JStr) : JStr :=
  ((cs.dropWhile isWs).reverse.dropWhile isWs).reverse

/-- JS `replace(/^\d+\s*/, '')` from `extractStreet`: when the string starts
with a digit, drop the leading run of digits and any following whitespace. -/
def stripHouseNumber (cs : JStr) : JStr :=
  match cs with
  | [] => []
  | c :: _ =>
    if c.isDigit then (cs.dropWhile Char.isDigit).dropWhile isWs
    else cs

/-- The street derivation applied to one location (or intersection member):
strip a leading house number, then trim. -/
def streetFrom (cs : JStr) : JStr := trimChars (stripHouseNumber cs)

/-- Characters before the first occurrence of the intersection separator
`" / "`; `none` when the separator does not occur.  Models
`location.includes(' / ')` together with `location.split(' / ')[0]`. -/
def beforeSep : JStr → Option JStr
  | [] => none
  | c :: rest =>
    if c = ' ' ∧ rest.take 2 = ['/', ' '] then some []
    else (beforeSep rest).map (c :: ·)

/-- extractStreet from `src/db.js` lines 8–16.  A falsy location (`undefined`,
`null`, or the empty string) yields SQL `NULL`; an intersection-style
location keeps only the member before the first `" / "`; either way a
leading house number is stripped and the result trimmed. -/
def extractStreet (loc : JField) : Option JStr :=
  match loc with
  | .str s =>
    if s = [] then none
    else
      match beforeSep s with
      | some pre => some (streetFrom pre)
      | none => some (streetFrom s)
  | _ => none

/-- A feed incident, i.e. one element of `data.features[..].attributes`.
Fields keep the feed's names.  `CallReceivedTime` is an epoch-milliseconds
number; the optional text fields may be absent (`undef`) or `null`. -/
structure Incident where
  ObjectId : JsId
  IncidentTypeCode : JField
  IncidentTypeName : JField
  Location : JField
  LocationDescription : JField
  CityName : JField
  CallReceivedTime : Int
deriving DecidableEq

/-- One row of the `incidents` table (`src/db.js` schema), without the
autoincrement surrogate key. -/
structure Row where
  object_id : JsId
  incident_code : JField
  incident_type : JField
  location : JField
  location_desc : JField
  city : JField
  call_received : Int
  first_seen : Int
  last_seen : Int
  cleared : Bool
  cleared_at : Option Int
  street : Option JStr
  hour : Int
deriving DecidableEq

/-- The `incidents` table. -/
structure Store where
  rows : List Row
deriving DecidableEq

/-- Does a row match the dedup key `(object_id, call_received)`
(`UNIQUE(object_id, call_received)` in the schema)? -/
def keyMatches (oid : JsId) (cr : Int) (r : Row) : Bool :=
  r.object_id == oid && r.call_received == cr

/-- The `insertIncident` prepared statement (`INSERT OR IGNORE`): a row whose
`(object_id, call_received)` key already exists is skipped, as is a row that
would violate `incident_type TEXT NOT NULL` (with `OR IGNORE`, SQLite skips a
constraint-violating row instead of raising).  A fresh row starts with
`first_seen = last_seen = now`, `cleared = 0`, `cleared_at` NULL. -/
def insertedRow (inc : Incident) (now : Int) (street : Option JStr)
    (hour : Int) : Row :=
  { object_id := inc.ObjectId
    incident_code := inc.IncidentTypeCode
    incident_type := inc.IncidentTypeName
    location := inc.Location
    location_desc := inc.LocationDescription
    city := inc.CityName
    call_received := inc.CallReceivedTime
    first_seen := now
    last_seen := now
    cleared := false
    cleared_at := none
    street := street
    hour := hour }

def insertIncidentRun (st : Store) (inc : Incident) (now : Int)
    (street : Option JStr) (hour : Int) : Store :=
  if st.rows.any (keyMatches inc.ObjectId inc.CallReceivedTime) then st
  else if inc.IncidentTypeName = JField.null then st
  else { rows := st.rows ++ [insertedRow inc now street hour] }

/-- The `updateLastSeen` prepared statement:
`UPDATE incidents SET last_seen = @now WHERE object_id = @objectId AND
call_received = @callReceived AND cleared = 0`. -/
def updateLastSeenRun (st : Store) (oid : JsId) (cr : Int) (now : Int) : Store :=
  { rows := st.rows.map fun r =>
      if keyMatches oid cr r && !r.cleared then { r with last_seen := now } else r }

/-- Is a field value bindable?  better-sqlite3 rejects a binding object whose
value is `undefined` (only `null`, numbers, strings, bigints and buffers can
be bound), raising a `TypeError`. -/
def JField.bindable : JField → Bool
  | .undef => false
  | _ => true

/-- recordIncident from `src/db.js` lines 144–161: derive `street` and `hour`,
run `insertIncident`, then `updateLastSeen`.  `tzOffsetMin` is the Central
UTC offset used by `getHour`.  The call raises (returns `.error`) when one of
the bound attribute fields is `undefined`. -/
def recordIncidentE (tzOffsetMin : Int) (inc : Incident) (now : Int)
    (st : Store) : Except String Store :=
  let street := extractStreet inc.Location
  let hour := getHour inc.CallReceivedTime tzOffsetMin
  if inc.IncidentTypeCode.bindable && inc.IncidentTypeName.bindable &&
      inc.Location.bindable && inc.LocationDescription.bindable &&
      inc.CityName.bindable then
    let st1 := insertIncidentRun st inc now street hour
    .ok (updateLastSeenRun st1 inc.ObjectId inc.CallReceivedTime now)
  else .error "TypeError: cannot bind undefined"

/-- One run of the `markCleared` prepared statement
(`UPDATE incidents SET cleared = 1, cleared_at = @now WHERE
object_id = @objectId AND call_received = @callReceived AND cleared = 0`).
The binding object that `db.js` passes may omit parameters, so each
parameter arrives as an `Option`; better-sqlite3 raises a `RangeError` when
a parameter referenced by the statement is missing from the binding. -/
def markClearedStmtRun (st : Store) (objectId : Option JsId)
    (callReceived : Option Int) (now : Option Int) : Except String Store :=
  match objectId, callReceived, now with
  | some oid, some cr, some n =>
    .ok { rows := st.rows.map fun r =>
            if keyMatches oid cr r && !r.cleared then
              { r with cleared := true, cleared_at := some n }
            else r }
  | _, _, _ => .error "RangeError: missing named parameter"

/-- markCleared from `src/db.js` lines 164–169: for each id, run the
`markCleared` statement with the binding `{ objectId: id, now }` — the
binding contains no `callReceived` entry.  A raised error propagates out of
the `for` loop at once; the returned flag records whether that happened, and
the store reflects the runs completed before the error. -/
def markClearedLoop (now : Int) : List JsId → Store → Store × Bool
  | [], st => (st, false)
  | id :: rest, st =>
    match markClearedStmtRun st (some id) none (some now) with
    | .ok st' => markClearedLoop now rest st'
    | .error _ => (st, true)

/-- The database block of `dispatch-monitor.js` `main` (lines 115–128): a
single `try { for (...) db.recordIncident(...); if (...) db.markCleared(...) }
catch` around the whole batch.  The first raising `recordIncident` aborts the
loop (keeping the rows already written) and skips `markCleared`; an error
from `markCleared` is likewise caught, keeping the store as it stood. -/
def recordLoop (tzOffsetMin : Int) (now : Int) :
    List Incident → Store → Store × Bool
  | [], st => (st, false)
  | i :: rest, st =>
    match recordIncidentE tzOffsetMin i now st with
    | .ok st' => recordLoop tzOffsetMin now rest st'
    | .error _ => (st, true)

/-- The whole persisted effect of one poll's database block: record every
current incident (until the first error), then mark the cleared ids. -/
def persistBatch (tzOffsetMin : Int) (now : Int) (incs : List Incident)
    (clearedIds : List JsId) (st : Store) : Store :=
  match recordLoop tzOffsetMin now incs st with
  | (st1, true) => st1
  | (st1, false) =>
    if clearedIds.isEmpty then st1
    else (markClearedLoop now clearedIds st1).1

/-- Insert into a JS `Set` model: sets preserve first-occurrence insertion
order and use SameValueZero equality (here plain decidable equality; none of
the inserted values is `NaN` except via `previousIds`, and `NaN` equals
itself under SameValueZero, which `DecidableEq` on `JsNum` also gives). -/
def setInsert {α : Type} [DecidableEq α] (l : List α) (a : α) : List α :=
  if a ∈ l then l else l ++ [a]

/-- The JS `new Set(list)` model: deduplicate keeping first occurrences. -/
def setOfList {α : Type} [DecidableEq α] (l : List α) : List α :=
  l.foldl setInsert []

/-- SameValueZero test `previousIds.has(i.ObjectId)`: the set holds numbers
(or `NaN`), the probe is a raw id.  An integer-id probe matches exactly the
equal number; a string-id probe matches no number and no `NaN`. -/
def numSetHasId (set : List JsNum) (v : JsId) : Bool :=
  match v with
  | .int m => set.any fun x => x == JsNum.num m
  | .str _ => false

/-- SameValueZero test `currentIds.has(id)`: the set holds raw ids, the probe
is a number (or `NaN`).  A number probe matches exactly the equal integer id;
a `NaN` probe matches nothing, since no set element is `NaN`. -/
def idSetHasNum (set : List JsId) (v : JsNum) : Bool :=
  match v with
  | .num n => set.any fun c => c == JsId.int n
  | .nan => false

/-- Saved snapshot state (`.dispatch-state.json`): a JSON object mapping the
stringified identifier to the last-seen feed record, plus `lastUpdate`.
JSON object keys are strings and are unique. -/
structure SnapState where
  incidents : List (JStr × Incident)
  lastUpdate : Option Int
deriving DecidableEq

/-- JS property lookup `state.incidents[id]` (after key coercion):
`none` models `undefined`. -/
def lookupKey (m : List (JStr × Incident)) (k : JStr) : Option Incident :=
  m.lookup k

/-- The diff computed by `dispatch-monitor.js` `main` (lines 97–104). -/
structure DiffResult where
  newIncidents : List Incident
  clearedIncidents : List Incident
deriving DecidableEq

/-- State differencing from `dispatch-monitor.js` lines 97–104:
`currentIds = new Set(incidents.map(i => i.ObjectId))`,
`previousIds = new Set(Object.keys(state.incidents).map(Number))`,
`newIncidents = incidents.filter(i => !previousIds.has(i.ObjectId))`,
`clearedIds = [...previousIds].filter(id => !currentIds.has(id))`,
`clearedIncidents = clearedIds.map(id => state.incidents[id]).filter(Boolean)`. -/
def computeDiff (prevMap : List (JStr × Incident)) (current : List Incident) :
    DiffResult :=
  let currentIds := setOfList (current.map (·.ObjectId))
  let previousIds := setOfList (prevMap.map fun kv => jsToNumber kv.1)
  let newIncidents := current.filter fun i => !numSetHasId previousIds i.ObjectId
  let clearedIds := previousIds.filter fun v => !idSetHasNum currentIds v
  let clearedIncidents := clearedIds.filterMap fun v => lookupKey prevMap (jsNumKey v)
  { newIncidents := newIncidents, clearedIncidents := clearedIncidents }

/-- The differ as the spec states it, over a map keyed by the raw identifier:
`newIncidents = current incidents whose id ∉ keys(previous)`. -/
def specNewIncidents (prevMap : List (JsId × Incident))
    (current : List Incident) : List Incident :=
  current.filter fun i => decide (i.ObjectId ∉ prevMap.map Prod.fst)

/-- The differ as the spec states it: `clearedIncidents = previous incidents
whose id ∉ currentIds`, the full record looked up by id in `previous`. -/
def specClearedIncidents (prevMap : List (JsId × Incident))
    (current : List Incident) : List Incident :=
  (prevMap.filter fun kv => decide (kv.1 ∉ current.map (·.ObjectId))).map Prod.snd

/-- An integer-keyed previous snapshot, as a map keyed by raw identifier. -/
def intKeyed (prevL : List (Int × Incident)) : List (JsId × Incident) :=
  prevL.map fun kv => (JsId.int kv.1, kv.2)

/-- Store a previous snapshot keyed by raw identifier in the JSON form the
monitor persists: every key is coerced to a string property key. -/
def storedSnapshot (prevMap : List (JsId × Incident)) : List (JStr × Incident) :=
  prevMap.map fun kv => (kv.1.toKey, kv.2)

/-- One raw feature of the ArcGIS payload. -/
structure Feature where
  attributes : Incident
deriving DecidableEq

/-- A parsed fetch payload: `features` may be missing entirely (for example
an upstream error object that is still well-formed JSON). -/
structure FeedPayload where
  features : Option (List Feature)
deriving DecidableEq

/-- Normalisation in `dispatch-monitor.js` line 94:
`data.features?.map(f => f.attributes) || []` — a payload without a
`features` array becomes the empty incident list, with no error raised. -/
def normalizeIncidents (p : FeedPayload) : List Incident :=
  match p.features with
  | some fs => fs.map (·.attributes)
  | none => []

/-- JS property assignment `m[k] = v`: replace in place when the key exists,
append otherwise. -/
def upsertKey (m : List (JStr × Incident)) (k : JStr) (v : Incident) :
    List (JStr × Incident) :=
  if m.any (·.1 == k) then m.map fun kv => if kv.1 == k then (k, v) else kv
  else m ++ [(k, v)]

/-- The replacement snapshot state built by `main` (lines 106–112):
`newState.incidents[i.ObjectId] = i` for every current incident, plus
`lastUpdate = Date.now()`. -/
def buildNewState (current : List Incident) (now : Int) : SnapState :=
  { incidents := current.foldl (fun m i => upsertKey m i.ObjectId.toKey i) []
    lastUpdate := some now }

/-- One poll's pure state step: normalise the payload, diff against the saved
snapshot, and produce the replacement snapshot that `saveState` writes. -/
def pollStep (payload : FeedPayload) (state : SnapState) (now : Int) :
    DiffResult × SnapState :=
  let incidents := normalizeIncidents payload
  (computeDiff state.incidents incidents, buildNewState incidents now)

/-- The Discord character budget (`DISCORD_LIMIT` in `dispatch-monitor.js`). -/
def DISCORD_LIMIT : Nat := 2000

/-- The status header template from `main` (line 152): counts are
interpolated with their decimal rendering. -/
def statusHeader (count : Nat) : JStr :=
  "# 🚔 Nashville Active Dispatch\n**".toList ++ natChars count ++
    " active incident".toList ++ (if count ≠ 1 then ['s'] else []) ++
    "**\n\n".toList

/-- The status footer template from `main` (line 153); the rendered local
timestamp is a parameter. -/
def statusFooter (timestamp : JStr) : JStr :=
  "\n---\n_Last polled: ".toList ++ timestamp ++
    " CT_\n_Updates every 2 minutes | Data: Nashville Open Data Portal_".toList

/-- The truncation marker `` `\n_...and ${N} more_` `` (line 172). -/
def moreMarker (omitted : Nat) : JStr :=
  "\n_...and ".toList ++ natChars omitted ++ " more_".toList

/-- `output.join('\n')`. -/
def joinNL : List JStr → JStr
  | [] => []
  | [s] => s
  | s :: rest => s ++ '\n' :: joinNL rest

/-- The greedy fill loop of `main` (lines 160–169): starting from
`charCount = header.length + footer.length`, accept each formatted incident
line while `charCount + (line + '\n').length + 30 < DISCORD_LIMIT`, breaking
at the first line that does not fit.  Returns the accepted prefix and the
final `charCount`. -/
def fillLines : List JStr → Nat → List JStr × Nat
  | [], c => ([], c)
  | l :: rest, c =>
    if c + (l.length + 1) + 30 < DISCORD_LIMIT then
      let r := fillLines rest (c + (l.length + 1))
      (l :: r.1, r.2)
    else ([], c)

/-- The full-status renderer of `main` (lines 148–180), parameterised by the
already-formatted incident lines (`formatIncidentShort` of each incident, in
sorted order) and the rendered poll timestamp.  Lengths count code points. -/
def renderStatus (lines : List JStr) (timestamp : JStr) : JStr :=
  let header := statusHeader lines.length
  let footer := statusFooter timestamp
  if lines.isEmpty then
    header ++ "_No active incidents right now_ ✅".toList ++ footer
  else
    let r := fillLines lines (header.length + footer.length)
    let shown := r.1.length
    let out :=
      if shown < lines.length then r.1 ++ [moreMarker (lines.length - shown)]
      else r.1
    header ++ joinNL out ++ footer

/-- ASCII upper-casing of a JS string, as SQLite `LIKE` folds case for ASCII
letters. -/
def upperChars (cs : JStr) : JStr := cs.map Char.toUpper

/-- Does `pat` start the second list? -/
def isPrefixL : List Char → List Char → Bool
  | [], _ => true
  | _ :: _, [] => false
  | a :: as, b :: bs => a == b && isPrefixL as bs

/-- Does `hay` contain `pat` as a contiguous substring? -/
def hasSubstr (pat : List Char) : List Char → Bool
  | [] => pat.isEmpty
  | c :: rest => isPrefixL pat (c :: rest) || hasSubstr pat rest

/-- SQLite `column LIKE '%pat%'` with default (ASCII case-insensitive)
collation. -/
def likeCI (pat : JStr) (s : JStr) : Bool :=
  hasSubstr (upperChars pat) (upperChars s)

/-- `LIKE` applied to a column value: a `NULL` operand makes the predicate
`NULL`, which filters/counts as false. -/
def typeLike (pat : JStr) (f : JField) : Bool :=
  match f with
  | .str s => likeCI pat s
  | _ => false

/-- The violent-type disjunction in the `getViolentStreets` query
(`src/db.js` lines 200–217). -/
def violentStreetsCase (f : JField) : Bool :=
  typeLike "SHOOT".toList f || typeLike "ASSAULT".toList f ||
    typeLike "FIGHT".toList f || typeLike "ROBBERY".toList f ||
    typeLike "STAB".toList f || typeLike "HOMICIDE".toList f

/-- The full `WHERE` row filter of the `getViolentStreets` query:
`call_received > @since AND street IS NOT NULL AND (violent disjunction)`. -/
def violentStreetsWhere (since : Int) (r : Row) : Bool :=
  decide (since < r.call_received) && r.street.isSome &&
    violentStreetsCase r.incident_type

/-- The violent `CASE` of the `getDailyStats` query (`src/db.js`
lines 128–138): `incident_type LIKE '%ASSAULT%' OR incident_type LIKE
'%SHOOT%'`. -/
def dailyViolentCase (f : JField) : Bool :=
  typeLike "ASSAULT".toList f || typeLike "SHOOT".toList f

/-- The violent `CASE` of the `getHourlyStats` query (`src/db.js`
lines 220–232): shoot, assault, fight or robbery. -/
def hourlyViolentCase (f : JField) : Bool :=
  typeLike "SHOOT".toList f || typeLike "ASSAULT".toList f ||
    typeLike "FIGHT".toList f || typeLike "ROBBERY".toList f

/-- The classifier exactly as the claim words it: the type name contains one
of shooting, stabbing, assault, fight, robbery, homicide, carjacking as a
case-insensitive substring. -/
def specViolentClaim (f : JField) : Bool :=
  typeLike "shooting".toList f || typeLike "stabbing".toList f ||
    typeLike "assault".toList f || typeLike "fight".toList f ||
    typeLike "robbery".toList f || typeLike "homicide".toList f ||
    typeLike "carjacking".toList f

/-- A concrete incident builder used by the evaluation theorems below. -/
def demoIncident (oid : JsId) (typeName : JStr) (loc : JStr) (cr : Int) :
    Incident :=
  { ObjectId := oid
    IncidentTypeCode := .str "57P".toList
    IncidentTypeName := .str typeName
    Location := .str loc
    LocationDescription := .null
    CityName := .str "NASHVILLE".toList
    CallReceivedTime := cr }

/-- An empty `incidents` table. -/
def emptyStore : Store := { rows := [] }

/-- A store holding one still-active occurrence of object id 5. -/
def demoActiveStore : Store :=
  { rows := [{ object_id := .int 5
               incident_code := .str "57P".toList
               incident_type := .str "FIGHT/ASSAULT".toList
               location := .str "2600 8TH AVE S".toList
               location_desc := .null
               city := .str "BERRY HILL".toList
               call_received := 1000
               first_seen := 1100
               last_seen := 1200
               cleared := false
               cleared_at := none
               street := some "8TH AVE S".toList
               hour := 23 }] }

/-- A feed record whose `LocationDescription` attribute is absent: binding it
makes better-sqlite3 raise, so `recordIncident` throws on it. -/
def demoBadIncident : Incident :=
  { ObjectId := .int 8
    IncidentTypeCode := .str "71A".toList
    IncidentTypeName := .str "ALARM".toList
    Location := .str "1 MAIN ST".toList
    LocationDescription := .undef
    CityName := .str "NASHVILLE".toList
    CallReceivedTime := 2000 }

/-- A well-formed feed record that records without error. -/
def demoGoodIncident : Incident :=
  demoIncident (.int 9) "THEFT".toList "400 BROADWAY".toList 3000

/-- A store whose only record for the key of `demoGoodIncident` is already
cleared. -/
def demoClearedStore : Store :=
  { rows := [{ object_id := .int 9
               incident_code := .str "71A".toList
               incident_type := .str "THEFT".toList
               location := .str "400 BROADWAY".toList
               location_desc := .null
               city := .str "NASHVILLE".toList
               call_received := 3000
               first_seen := 3100
               last_seen := 3200
               cleared := true
               cleared_at := some 4000
               street := some "BROADWAY".toList
               hour := 3 }] }

/-- A stored record whose type name is exactly `FIGHT`. -/
def demoFightRow : Row :=
  { object_id := .int 11
    incident_code := .str "57".toList
    incident_type := .str "FIGHT".toList
    location := .str "100 OAK ST".toList
    location_desc := .null
    city := .str "NASHVILLE".toList
    call_received := 5
    first_seen := 6
    last_seen := 7
    cleared := false
    cleared_at := none
    street := some "OAK ST".toList
    hour := 12 }

/-- A stored record whose type name is `CARJACKING`. -/
def demoCarjackRow : Row :=
  { demoFightRow with
    object_id := .int 12
    incident_type := .str "CARJACKING".toList }

/-- A feed record with a string identifier, as the spec's data model allows
(`id`: integer or string). -/
def demoStrIncident : Incident :=
  demoIncident (.str "A1".toList) "FIGHT/ASSAULT".toList "2600 8TH AVE S".toList 1000

/-- Three long pre-formatted lines whose full rendering exceeds the Discord
budget. -/
def demoLines : List JStr :=
  [List.replicate 700 'a', List.replicate 700 'b', List.replicate 700 'c']

/-- A rendered poll timestamp of realistic size. -/
def demoTimestamp : JStr := "Oct 12, 2025, 01:00 PM".toList

/-! Helper lemmas about the decimal rendering used for property keys and
template interpolation. -/

theorem natToRevCharsAux_fuel :
    ∀ n fuel : Nat, n < fuel →
      natToRevCharsAux fuel n = natToRevCharsAux (n + 1) n := by
  intro n
  induction n using Nat.strong_induction_on with
  | _ n ih =>
    intro fuel hf
    obtain ⟨f, rfl⟩ : ∃ f, fuel = f + 1 := ⟨fuel - 1, by omega⟩
    by_cases h10 : n < 10
    · simp [natToRevCharsAux, h10]
    · have hdiv : n / 10 < n := Nat.div_lt_self (by omega) (by omega)
      simp only [natToRevCharsAux, h10, if_false]
      rw [ih (n / 10) hdiv f (by omega), ih (n / 10) hdiv n (by omega)]

theorem natChars_lt (n : Nat) (h : n < 10) : natChars n = [Nat.digitChar n] := by
  simp [natChars, natToRevCharsAux, h]

theorem natChars_ge (n : Nat) (h : 10 ≤ n) :
    natChars n = natChars (n / 10) ++ [Nat.digitChar (n % 10)] := by
  have h10 : ¬ n < 10 := by omega
  have hdiv : n / 10 < n := Nat.div_lt_self (by omega) (by omega)
  unfold natChars
  conv_lhs => rw [natToRevCharsAux]
  simp only [h10, if_false]
  rw [natToRevCharsAux_fuel (n / 10) n hdiv, List.reverse_cons]

theorem digitVal_digitChar (d : Nat) (h : d < 10) :
    digitVal (Nat.digitChar d) = d := by
  interval_cases d <;> rfl

theorem isDigit_digitChar (d : Nat) (h : d < 10) :
    (Nat.digitChar d).isDigit = true := by
  interval_cases d <;> rfl

theorem natChars_ne_nil (n : Nat) : natChars n ≠ [] := by
  by_cases h : n < 10
  · rw [natChars_lt n h]; simp
  · rw [natChars_ge n (by omega)]; simp

theorem natChars_all_digits (n : Nat) :
    (natChars n).all Char.isDigit = true := by
  induction n using Nat.strong_induction_on with
  | _ n ih =>
    by_cases h : n < 10
    · rw [natChars_lt n h]
      simp [isDigit_digitChar n h]
    · rw [natChars_ge n (by omega), List.all_append]
      have hdiv : n / 10 < n := Nat.div_lt_self (by omega) (by omega)
      simp [ih (n / 10) hdiv, isDigit_digitChar (n % 10) (Nat.mod_lt n (by omega))]

theorem foldl_natChars (n : Nat) :
    (natChars n).foldl (fun m c => m * 10 + digitVal c) 0 = n := by
  induction n using Nat.strong_induction_on with
  | _ n ih =>
    by_cases h : n < 10
    · rw [natChars_lt n h]
      simp [digitVal_digitChar n h]
    · rw [natChars_ge n (by omega), List.foldl_append]
      have hdiv : n / 10 < n := Nat.div_lt_self (by omega) (by omega)
      rw [ih (n / 10) hdiv]
      simp only [List.foldl_cons, List.foldl_nil,
        digitVal_digitChar (n % 10) (Nat.mod_lt n (by omega))]
      omega

theorem parseNatChars_natChars (n : Nat) :
    parseNatChars (natChars n) = some n := by
  unfold parseNatChars
  rw [if_pos ⟨natChars_ne_nil n, natChars_all_digits n⟩, foldl_natChars]

theorem natChars_head_not_neg (n : Nat) (c : Char) (rest : JStr)
    (h : natChars n = c :: rest) : c ≠ '-' := by
  intro hc
  have hall := natChars_all_digits n
  rw [h, hc] at hall
  simp [List.all_cons, Char.isDigit] at hall

theorem jsToNumber_intChars (n : Int) : jsToNumber (intChars n) = JsNum.num n := by
  cases n with
  | ofNat m =>
    show jsToNumber (natChars m) = JsNum.num m
    rcases hm : natChars m with _ | ⟨c, rest⟩
    · exact absurd hm (natChars_ne_nil m)
    · have hc := natChars_head_not_neg m c rest hm
      have hp : parseNatChars (c :: rest) = some m := by
        rw [← hm]; exact parseNatChars_natChars m
      simp [jsToNumber, hc, hp]
  | negSucc m =>
    show jsToNumber ('-' :: natChars (m + 1)) = JsNum.num (Int.negSucc m)
    simp [jsToNumber, parseNatChars_natChars (m + 1), Int.negSucc_eq]

theorem intChars_injective : Function.Injective intChars := by
  intro a b h
  have h2 := congrArg jsToNumber h
  rw [jsToNumber_intChars, jsToNumber_intChars] at h2
  injection h2

theorem natChars_length_le (k : Nat) :
    ∀ n : Nat, n < 10 ^ k → (natChars n).length ≤ max k 1 := by
  induction k with
  | zero =>
    intro n hn
    have : n = 0 := by omega
    subst this
    rw [natChars_lt 0 (by omega)]
    simp
  | succ k ih =>
    intro n hn
    by_cases h : n < 10
    · rw [natChars_lt n h]
      simp only [List.length_cons, List.length_nil]
      omega
    · rw [natChars_ge n (by omega), List.length_append]
      have hdiv : n / 10 < 10 ^ k := by
        rw [Nat.div_lt_iff_lt_mul (by omega)]
        calc n < 10 ^ (k + 1) := hn
        _ = 10 ^ k * 10 := by rw [pow_succ]
      have hlen := ih (n / 10) hdiv
      rcases Nat.eq_zero_or_pos k with hk | hk
      · subst hk
        simp only [pow_zero, Nat.lt_one_iff, Nat.div_eq_zero_iff] at hdiv
        omega
      · rw [Nat.max_eq_left hk] at hlen
        rw [Nat.max_eq_left (by omega)]
        simp only [List.length_cons, List.length_nil]
        omega

/-! Claim C1. -/

/-- C1: the claim says `markCleared(ids)` sets `cleared = true, clearedAt =
now` for each id's still-active records.  The code cannot do this: the
`markCleared` statement references `@callReceived`, but `db.js` binds only
`{ objectId, now }`, so better-sqlite3 raises a missing-named-parameter
error on the very first id and no record is ever marked cleared.  Evaluated
here on a store holding one active record with object id 5: the statement
run errors, the loop aborts, and the store still holds no cleared record. -/
theorem claim_C1_markCleared_never_clears :
    markClearedStmtRun demoActiveStore (some (JsId.int 5)) none (some 2000) =
      Except.error "RangeError: missing named parameter" ∧
    markClearedLoop 2000 [JsId.int 5] demoActiveStore = (demoActiveStore, true) ∧
    demoActiveStore.rows.all (fun r => !r.cleared) = true := by
  exact ⟨rfl, rfl, rfl⟩

/-! Claim C7. -/

/-- C7: `getHour` always yields a value in 0–23, and `recordOccurrence`
preserves the invariant that every stored row's hour bucket lies in 0–23
(the freshly inserted row stores exactly `getHour` of its `receivedAt`). -/
theorem claim_C7_hourBucket_range :
    (∀ ts off : Int, 0 ≤ getHour ts off ∧ getHour ts off ≤ 23) ∧
    (∀ (tz : Int) (inc : Incident) (now : Int) (st st' : Store),
      (∀ r ∈ st.rows, 0 ≤ r.hour ∧ r.hour ≤ 23) →
      recordIncidentE tz inc now st = .ok st' →
      ∀ r ∈ st'.rows, 0 ≤ r.hour ∧ r.hour ≤ 23) := by
  have hrange : ∀ ts off : Int, 0 ≤ getHour ts off ∧ getHour ts off ≤ 23 := by
    intro ts off
    unfold getHour
    refine ⟨Int.emod_nonneg _ (by norm_num), ?_⟩
    have h24 := Int.emod_lt_of_pos (Int.ediv (ts + off * 60000) 3600000)
      (show (0:Int) < 24 by norm_num)
    show Int.ediv (ts + off * 60000) 3600000 % 24 ≤ 23
    linarith
  refine ⟨hrange, ?_⟩
  intro tz inc now st st' hinv heq
  simp only [recordIncidentE] at heq
  split at heq
  · simp only [Except.ok.injEq] at heq
    subst heq
    intro r hr
    simp only [updateLastSeenRun, List.mem_map] at hr
    obtain ⟨r0, hr0, rfl⟩ := hr
    have hhour : ∀ s : Row,
        (if keyMatches inc.ObjectId inc.CallReceivedTime s && !s.cleared then
          { s with last_seen := now } else s).hour = s.hour := by
      intro s; split <;> rfl
    rw [hhour]
    simp only [insertIncidentRun] at hr0
    split at hr0
    · exact hinv r0 hr0
    · split at hr0
      · exact hinv r0 hr0
      · simp only [List.mem_append, List.mem_singleton] at hr0
        rcases hr0 with h | rfl
        · exact hinv r0 h
        · exact hrange inc.CallReceivedTime tz
  · simp at heq

/-- C7 witness: recording a concrete incident into the empty store yields a
store whose rows all carry an hour bucket in 0–23. -/
theorem claim_C7_witness :
    ∃ st', recordIncidentE (-300) demoGoodIncident 5 emptyStore = .ok st' ∧
      ∀ r ∈ st'.rows, 0 ≤ r.hour ∧ r.hour ≤ 23 := by
  refine ⟨_, rfl, ?_⟩
  exact claim_C7_hourBucket_range.2 (-300) demoGoodIncident 5 emptyStore _
    (by simp [emptyStore]) rfl

/-! Claim C6. -/

/-- C6 counterexample: the claim says every violent-filtered aggregate query
classifies by the same seven-keyword set (including carjacking), so all
queries agree on every record.  On the record typed `FIGHT` the hourly query
counts it violent while the daily query does not, and on the record typed
`CARJACKING` the claim's classifier says violent while none of the three
queries counts it. -/
theorem claim_C6_counterexample :
    hourlyViolentCase demoFightRow.incident_type = true ∧
    dailyViolentCase demoFightRow.incident_type = false ∧
    specViolentClaim demoCarjackRow.incident_type = true ∧
    violentStreetsWhere 0 demoCarjackRow = false ∧
    dailyViolentCase demoCarjackRow.incident_type = false ∧
    hourlyViolentCase demoCarjackRow.incident_type = false := by
  exact ⟨by decide, by decide, by decide, by decide, by decide, by decide⟩

/-- C6 amended: each query classifies by a case-insensitive substring match
over its own keyword set — assault/shoot for the daily stats, plus
fight/robbery for the hourly stats, plus stab/homicide for the hotspot
streets query, and carjacking in none — and these sets are nested, so
daily-violent implies hourly-violent implies the hotspot query's violent
condition (the queries do not classify identically, but monotonically). -/
theorem claim_C6_amended_nested_classifiers :
    ∀ f : JField,
      (dailyViolentCase f = true → hourlyViolentCase f = true) ∧
      (hourlyViolentCase f = true → violentStreetsCase f = true) := by
  intro f
  constructor
  · intro h
    simp only [dailyViolentCase, Bool.or_eq_true] at h
    simp only [hourlyViolentCase, Bool.or_eq_true]
    tauto
  · intro h
    simp only [hourlyViolentCase, Bool.or_eq_true] at h
    simp only [violentStreetsCase, Bool.or_eq_true]
    tauto

/-- C6 witness for the amended statement, at the concrete types `ASSAULT`
(daily-violent, hence hourly-violent) and `FIGHT` (hourly-violent, hence
hotspot-violent). -/
theorem claim_C6_witness :
    hourlyViolentCase (.str "ASSAULT".toList) = true ∧
    violentStreetsCase demoFightRow.incident_type = true := by
  exact ⟨(claim_C6_amended_nested_classifiers (.str "ASSAULT".toList)).1 (by decide),
    (claim_C6_amended_nested_classifiers demoFightRow.incident_type).2 (by decide)⟩

/-! Claim C9. -/

theorem dropWhile_idem {α : Type} (p : α → Bool) (l : List α) :
    (l.dropWhile p).dropWhile p = l.dropWhile p := by
  induction l with
  | nil => rfl
  | cons c t ih =>
    by_cases h : p c
    · simp [List.dropWhile_cons, h, ih]
    · simp [List.dropWhile_cons, h]

theorem dropWhile_append_of_all {α : Type} (p : α → Bool) (ds t : List α)
    (h : ds.all p = true) : (ds ++ t).dropWhile p = t.dropWhile p := by
  induction ds with
  | nil => rfl
  | cons c d ih =>
    simp only [List.all_cons, Bool.and_eq_true] at h
    simp [List.dropWhile_cons, h.1, ih h.2]

theorem beforeSep_none_of_no_slash (a : JStr) (h : '/' ∉ a) :
    beforeSep a = none := by
  induction a with
  | nil => rfl
  | cons c rest ih =>
    have hcond : ¬(c = ' ' ∧ rest.take 2 = ['/', ' ']) := by
      rintro ⟨-, htake⟩
      have hm : '/' ∈ rest.take 2 := by rw [htake]; simp
      exact h (List.mem_cons_of_mem c (List.mem_of_mem_take hm))
    have hrest : '/' ∉ rest := fun hm => h (List.mem_cons_of_mem c hm)
    simp [beforeSep, hcond, ih hrest]

theorem beforeSep_append_sep (a b : JStr) (h : '/' ∉ a) :
    beforeSep (a ++ ' ' :: '/' :: ' ' :: b) = some a := by
  induction a with
  | nil => simp [beforeSep, List.take]
  | cons c a' ih =>
    have hcond : ¬(c = ' ' ∧ (a' ++ ' ' :: '/' :: ' ' :: b).take 2 = ['/', ' ']) := by
      rintro ⟨-, htake⟩
      rcases a' with _ | ⟨x, a''⟩
      · simp [List.take] at htake
      · rcases a'' with _ | ⟨y, a'''⟩
        · simp [List.take] at htake
          exact h (by simp [htake])
        · simp [List.take] at htake
          exact h (by simp [htake.1])
    have ha' : '/' ∉ a' := fun hm => h (List.mem_cons_of_mem c hm)
    simp [beforeSep, hcond, ih ha']

/-- C9: `extractStreet` strips a leading numeric house-number token (a
nonempty all-digit token followed by a space) and, for intersection-style
locations, keeps only the member before the first `" / "`; in particular
"2600 8TH AVE S" yields "8TH AVE S" and "CHARLOTTE AVE / 28TH AVE N" yields
"CHARLOTTE AVE". -/
theorem claim_C9_extractStreet :
    extractStreet (.str "2600 8TH AVE S".toList) = some "8TH AVE S".toList ∧
    extractStreet (.str "CHARLOTTE AVE / 28TH AVE N".toList) =
      some "CHARLOTTE AVE".toList ∧
    (∀ ds rest : JStr, ds ≠ [] → ds.all Char.isDigit = true →
      beforeSep (ds ++ ' ' :: rest) = none →
      extractStreet (.str (ds ++ ' ' :: rest)) = some (trimChars rest)) ∧
    (∀ a b : JStr, a ≠ [] → '/' ∉ a →
      extractStreet (.str (a ++ ' ' :: '/' :: ' ' :: b)) =
        extractStreet (.str a)) := by
  refine ⟨by decide, by decide, ?_, ?_⟩
  · intro ds rest hne hdig hsep
    rcases ds with _ | ⟨d, ds'⟩
    · exact absurd rfl hne
    have hd : d.isDigit = true := by
      simp only [List.all_cons, Bool.and_eq_true] at hdig
      exact hdig.1
    have hnil : d :: ds' ++ ' ' :: rest ≠ [] := by simp
    simp only [extractStreet, if_neg hnil, hsep]
    simp only [streetFrom, stripHouseNumber, List.cons_append, hd, if_pos]
    rw [show (d :: (ds' ++ ' ' :: rest)) = (d :: ds') ++ ' ' :: rest from rfl,
      dropWhile_append_of_all Char.isDigit (d :: ds') (' ' :: rest) hdig]
    rw [show (' ' :: rest).dropWhile Char.isDigit = ' ' :: rest from by
      rw [List.dropWhile_cons, if_neg (by decide)]]
    rw [show (' ' :: rest).dropWhile isWs = rest.dropWhile isWs from by
      rw [List.dropWhile_cons, if_pos (by decide)]]
    simp only [trimChars, dropWhile_idem]
  · intro a b hne hsl
    have hnil : a ++ ' ' :: '/' :: ' ' :: b ≠ [] := by
      rcases a with _ | ⟨c, a'⟩ <;> simp
    simp only [extractStreet, if_neg hnil, if_neg hne,
      beforeSep_append_sep a b hsl, beforeSep_none_of_no_slash a hsl]

/-- C9 witness: the general conjuncts applied at concrete locations. -/
theorem claim_C9_witness :
    extractStreet (.str (['4', '2'] ++ ' ' :: "MAIN ST".toList)) =
      some (trimChars "MAIN ST".toList) ∧
    extractStreet (.str ("BROADWAY".toList ++ ' ' :: '/' :: ' ' :: "5TH AVE".toList)) =
      extractStreet (.str "BROADWAY".toList) := by
  exact ⟨claim_C9_extractStreet.2.2.1 ['4', '2'] "MAIN ST".toList (by decide)
      (by decide) (by decide),
    claim_C9_extractStreet.2.2.2 "BROADWAY".toList "5TH AVE".toList (by decide)
      (by decide)⟩

/-! Claims C2 and C3: store upsert semantics. -/

theorem map_eq_self_of {α : Type} (l : List α) (f : α → α)
    (h : ∀ a ∈ l, f a = a) : l.map f = l := by
  induction l with
  | nil => rfl
  | cons a t ih =>
    rw [List.map_cons, h a (List.mem_cons_self a t),
      ih fun b hb => h b (List.mem_cons_of_mem a hb)]

theorem keyMatches_insertedRow (inc : Incident) (now : Int)
    (street : Option JStr) (hour : Int) :
    keyMatches inc.ObjectId inc.CallReceivedTime
      (insertedRow inc now street hour) = true := by
  simp [keyMatches, insertedRow]

theorem updateLastSeenRun_no_match (st : Store) (oid : JsId) (cr now : Int)
    (h : ∀ r ∈ st.rows, keyMatches oid cr r = true → r.cleared = true) :
    updateLastSeenRun st oid cr now = st := by
  unfold updateLastSeenRun
  cases st with
  | mk rows =>
    simp only [Store.mk.injEq]
    apply map_eq_self_of
    intro r hr
    by_cases hk : keyMatches oid cr r = true
    · rw [if_neg]
      simp [hk, h r hr hk]
    · rw [if_neg]
      simp only [Bool.and_eq_true, not_and]
      intro hk'
      exact absurd hk' hk

/-- C2: recording the same `(id, receivedAt)` occurrence twice, starting from
a store with no row for that key, produces exactly one row for the key:
`first_seen` keeps the first call's time `t1` while `last_seen` advances to
the second call's time `t2`. -/
theorem claim_C2_record_twice_single_row :
    ∀ (tz : Int) (inc : Incident) (t1 t2 : Int) (st : Store),
      st.rows.any (keyMatches inc.ObjectId inc.CallReceivedTime) = false →
      inc.IncidentTypeCode.bindable = true →
      (∃ ty, inc.IncidentTypeName = JField.str ty) →
      inc.Location.bindable = true →
      inc.LocationDescription.bindable = true →
      inc.CityName.bindable = true →
      ∃ st1 st2,
        recordIncidentE tz inc t1 st = .ok st1 ∧
        recordIncidentE tz inc t2 st1 = .ok st2 ∧
        st2.rows = st.rows ++
          [{ insertedRow inc t1 (extractStreet inc.Location)
              (getHour inc.CallReceivedTime tz) with last_seen := t2 }] ∧
        st2.rows.filter (keyMatches inc.ObjectId inc.CallReceivedTime) =
          [{ insertedRow inc t1 (extractStreet inc.Location)
              (getHour inc.CallReceivedTime tz) with last_seen := t2 }] := by
  intro tz inc t1 t2 st hfresh hb1 hbname hb3 hb4 hb5
  obtain ⟨ty, hty⟩ := hbname
  have hb2 : inc.IncidentTypeName.bindable = true := by rw [hty]; rfl
  have hbind : (inc.IncidentTypeCode.bindable && inc.IncidentTypeName.bindable &&
      inc.Location.bindable && inc.LocationDescription.bindable &&
      inc.CityName.bindable) = true := by
    simp [hb1, hb2, hb3, hb4, hb5]
  have hnn : ¬ inc.IncidentTypeName = JField.null := by rw [hty]; simp
  have hnomatch : ∀ r ∈ st.rows,
      keyMatches inc.ObjectId inc.CallReceivedTime r = false := by
    intro r hr
    have h := List.any_eq_false.mp hfresh r hr
    simpa using h
  generalize hstv : extractStreet inc.Location = stv
  generalize hhv : getHour inc.CallReceivedTime tz = hv
  have hkey1 := keyMatches_insertedRow inc t1 stv hv
  have hins1 : insertIncidentRun st inc t1 stv hv =
      ⟨st.rows ++ [insertedRow inc t1 stv hv]⟩ := by
    unfold insertIncidentRun
    rw [if_neg (by simp [hfresh]), if_neg hnn]
  have hmap_old : ∀ now : Int, st.rows.map (fun r =>
      if keyMatches inc.ObjectId inc.CallReceivedTime r && !r.cleared then
        { r with last_seen := now } else r) = st.rows := by
    intro now
    apply map_eq_self_of
    intro r hr
    simp [hnomatch r hr]
  have hcond1 : (keyMatches inc.ObjectId inc.CallReceivedTime
      (insertedRow inc t1 stv hv) && !(insertedRow inc t1 stv hv).cleared) = true := by
    rw [hkey1]; rfl
  have hupd1 : updateLastSeenRun ⟨st.rows ++ [insertedRow inc t1 stv hv]⟩
      inc.ObjectId inc.CallReceivedTime t1 =
      ⟨st.rows ++ [insertedRow inc t1 stv hv]⟩ := by
    unfold updateLastSeenRun
    simp only [Store.mk.injEq, List.map_append, hmap_old t1, List.map_cons,
      List.map_nil]
    rw [if_pos hcond1]
    rfl
  have hrec1 : recordIncidentE tz inc t1 st =
      .ok ⟨st.rows ++ [insertedRow inc t1 stv hv]⟩ := by
    simp only [recordIncidentE, hstv, hhv]
    rw [if_pos hbind, hins1, hupd1]
  have hany2 : (st.rows ++ [insertedRow inc t1 stv hv]).any
      (keyMatches inc.ObjectId inc.CallReceivedTime) = true := by
    rw [List.any_append]
    simp [hkey1]
  have hins2 : insertIncidentRun ⟨st.rows ++ [insertedRow inc t1 stv hv]⟩ inc t2 stv hv =
      ⟨st.rows ++ [insertedRow inc t1 stv hv]⟩ := by
    unfold insertIncidentRun
    rw [if_pos hany2]
  have hupd2 : updateLastSeenRun ⟨st.rows ++ [insertedRow inc t1 stv hv]⟩
      inc.ObjectId inc.CallReceivedTime t2 =
      ⟨st.rows ++ [{ insertedRow inc t1 stv hv with last_seen := t2 }]⟩ := by
    unfold updateLastSeenRun
    simp only [Store.mk.injEq, List.map_append, hmap_old t2, List.map_cons,
      List.map_nil]
    rw [if_pos hcond1]
  have hrec2 : recordIncidentE tz inc t2 ⟨st.rows ++ [insertedRow inc t1 stv hv]⟩ =
      .ok ⟨st.rows ++ [{ insertedRow inc t1 stv hv with last_seen := t2 }]⟩ := by
    simp only [recordIncidentE, hstv, hhv]
    rw [if_pos hbind, hins2, hupd2]
  refine ⟨_, _, hrec1, hrec2, rfl, ?_⟩
  rw [List.filter_append]
  rw [List.filter_eq_nil_iff.mpr (by intro r hr; simp [hnomatch r hr])]
  have hkey2 : keyMatches inc.ObjectId inc.CallReceivedTime
      { insertedRow inc t1 stv hv with last_seen := t2 } = true := hkey1
  simp [hkey2]

/-- C2 witness: recording `demoGoodIncident` at times 10 and 20 into the
empty store leaves exactly one row, with `first_seen = 10` and
`last_seen = 20`. -/
theorem claim_C2_witness :
    ∃ st1 st2,
      recordIncidentE 0 demoGoodIncident 10 emptyStore = .ok st1 ∧
      recordIncidentE 0 demoGoodIncident 20 st1 = .ok st2 ∧
      st2.rows = emptyStore.rows ++
        [{ insertedRow demoGoodIncident 10 (extractStreet demoGoodIncident.Location)
            (getHour demoGoodIncident.CallReceivedTime 0) with last_seen := 20 }] ∧
      st2.rows.filter (keyMatches demoGoodIncident.ObjectId
          demoGoodIncident.CallReceivedTime) =
        [{ insertedRow demoGoodIncident 10 (extractStreet demoGoodIncident.Location)
            (getHour demoGoodIncident.CallReceivedTime 0) with last_seen := 20 }] :=
  claim_C2_record_twice_single_row 0 demoGoodIncident 10 20 emptyStore
    (by decide) (by decide) ⟨"THEFT".toList, rfl⟩ (by decide) (by decide) (by decide)

/-- C3: when every stored row for an occurrence's `(id, receivedAt)` key is
already cleared, a further `recordOccurrence` call with that key leaves the
store entirely unchanged — the insert is ignored and the `last_seen` update
matches nothing, so `lastSeenAt` and all denormalized fields stay frozen. -/
theorem claim_C3_cleared_record_frozen :
    ∀ (tz : Int) (inc : Incident) (now : Int) (st : Store),
      st.rows.any (keyMatches inc.ObjectId inc.CallReceivedTime) = true →
      (∀ r ∈ st.rows,
        keyMatches inc.ObjectId inc.CallReceivedTime r = true → r.cleared = true) →
      inc.IncidentTypeCode.bindable = true →
      inc.IncidentTypeName.bindable = true →
      inc.Location.bindable = true →
      inc.LocationDescription.bindable = true →
      inc.CityName.bindable = true →
      recordIncidentE tz inc now st = .ok st := by
  intro tz inc now st hex hcl hb1 hb2 hb3 hb4 hb5
  have hbind : (inc.IncidentTypeCode.bindable && inc.IncidentTypeName.bindable &&
      inc.Location.bindable && inc.LocationDescription.bindable &&
      inc.CityName.bindable) = true := by
    simp [hb1, hb2, hb3, hb4, hb5]
  have hins : insertIncidentRun st inc now (extractStreet inc.Location)
      (getHour inc.CallReceivedTime tz) = st := by
    unfold insertIncidentRun
    rw [if_pos hex]
  simp only [recordIncidentE]
  rw [if_pos hbind, hins,
    updateLastSeenRun_no_match st inc.ObjectId inc.CallReceivedTime now hcl]

/-- C3 witness: re-recording `demoGoodIncident` against a store whose only
row for its key is cleared returns the store unchanged. -/
theorem claim_C3_witness :
    recordIncidentE 0 demoGoodIncident 9999 demoClearedStore =
      .ok demoClearedStore :=
  claim_C3_cleared_record_frozen 0 demoGoodIncident 9999 demoClearedStore
    (by decide) (by decide) (by decide) (by decide) (by decide) (by decide)
    (by decide)

/-! Claim C8: error containment in the persistence batch. -/

theorem recordLoop_append (tz now : Int) (pre rest : List Incident) (st : Store) :
    recordLoop tz now (pre ++ rest) st =
      match recordLoop tz now pre st with
      | (st1, true) => (st1, true)
      | (st1, false) => recordLoop tz now rest st1 := by
  induction pre generalizing st with
  | nil => simp [recordLoop]
  | cons i t ih =>
    simp only [List.cons_append, recordLoop]
    cases h : recordIncidentE tz i now st with
    | ok st' => simp [ih st']
    | error e => simp

/-- C8 counterexample: the claim says a store write failure on one occurrence
does not abort the batch and every other incident of the poll is still
recorded.  In the code the `try` wraps the whole loop, so recording the batch
`[demoBadIncident, demoGoodIncident]` into the empty store records nothing at
all — even though recording `demoGoodIncident` on its own succeeds. -/
theorem claim_C8_counterexample :
    persistBatch 0 100 [demoBadIncident, demoGoodIncident] [] emptyStore =
      emptyStore ∧
    recordIncidentE 0 demoGoodIncident 100 emptyStore =
      .ok ⟨[insertedRow demoGoodIncident 100 (extractStreet demoGoodIncident.Location)
          (getHour demoGoodIncident.CallReceivedTime 0)]⟩ := by
  exact ⟨rfl, rfl⟩

/-- C8 amended: a store write failure on one occurrence aborts persistence of
that occurrence and of every later occurrence in the poll, and skips the
`markCleared` step; the occurrences recorded before the failure are kept, and
the error is caught so the poll itself continues. -/
theorem claim_C8_amended_failure_aborts_rest :
    ∀ (tz now : Int) (pre post : List Incident) (bad : Incident)
      (cids : List JsId) (st st1 : Store) (e : String),
      recordLoop tz now pre st = (st1, false) →
      recordIncidentE tz bad now st1 = .error e →
      persistBatch tz now (pre ++ bad :: post) cids st = st1 := by
  intro tz now pre post bad cids st st1 e hpre hbad
  unfold persistBatch
  rw [recordLoop_append, hpre]
  simp only [recordLoop, hbad]

/-- C8 witness: with one good record before the bad one, exactly the good
record is persisted and the cleared ids are skipped. -/
theorem claim_C8_witness :
    persistBatch 0 7 [demoGoodIncident, demoBadIncident] [JsId.int 5] emptyStore =
      ⟨[insertedRow demoGoodIncident 7 (extractStreet demoGoodIncident.Location)
          (getHour demoGoodIncident.CallReceivedTime 0)]⟩ :=
  claim_C8_amended_failure_aborts_rest 0 7 [demoGoodIncident] [] demoBadIncident
    [JsId.int 5] emptyStore _ "TypeError: cannot bind undefined" rfl rfl

/-! Claims C4 and C10: state differencing. -/

theorem mem_foldl_setInsert {α : Type} [DecidableEq α] :
    ∀ (l acc : List α) (a : α),
      a ∈ l.foldl setInsert acc ↔ a ∈ acc ∨ a ∈ l := by
  intro l
  induction l with
  | nil => intro acc a; simp
  | cons x t ih =>
    intro acc a
    rw [List.foldl_cons, ih (setInsert acc x) a]
    unfold setInsert
    by_cases hx : x ∈ acc
    · rw [if_pos hx]
      constructor
      · rintro (h | h)
        · exact Or.inl h
        · exact Or.inr (List.mem_cons_of_mem x h)
      · rintro (h | h)
        · exact Or.inl h
        · rcases List.mem_cons.mp h with rfl | h
          · exact Or.inl hx
          · exact Or.inr h
    · rw [if_neg hx]
      simp only [List.mem_append, List.mem_singleton, List.mem_cons]
      tauto

theorem mem_setOfList {α : Type} [DecidableEq α] (l : List α) (a : α) :
    a ∈ setOfList l ↔ a ∈ l := by
  unfold setOfList
  rw [mem_foldl_setInsert l [] a]
  simp

theorem foldl_setInsert_of_nodup {α : Type} [DecidableEq α] :
    ∀ (l acc : List α), l.Nodup → (∀ a ∈ l, a ∉ acc) →
      l.foldl setInsert acc = acc ++ l := by
  intro l
  induction l with
  | nil => intro acc _ _; simp
  | cons x t ih =>
    intro acc hnd hdisj
    rw [List.foldl_cons]
    have hx : x ∉ acc := hdisj x (List.mem_cons_self x t)
    have hset : setInsert acc x = acc ++ [x] := by
      unfold setInsert; rw [if_neg hx]
    rw [hset, ih (acc ++ [x]) (List.Nodup.of_cons hnd) ?_]
    · simp
    · intro a ha
      simp only [List.mem_append, List.mem_singleton]
      rintro (h | rfl)
      · exact hdisj a (List.mem_cons_of_mem x ha) h
      · exact (List.nodup_cons.mp hnd).1 ha

theorem setOfList_of_nodup {α : Type} [DecidableEq α] (l : List α)
    (h : l.Nodup) : setOfList l = l := by
  unfold setOfList
  rw [foldl_setInsert_of_nodup l [] h (by simp)]
  simp

theorem filter_of_map {α β : Type} (f : α → β) (p : β → Bool) :
    ∀ l : List α, (l.map f).filter p = (l.filter fun a => p (f a)).map f := by
  intro l
  induction l with
  | nil => rfl
  | cons a t ih =>
    simp only [List.map_cons, List.filter_cons]
    by_cases h : p (f a)
    · rw [if_pos h, if_pos h, List.map_cons, ih]
    · rw [if_neg h, if_neg h, ih]

theorem filterMap_eq_map_of {α β : Type} (l : List α) (f : α → Option β)
    (g : α → β) (h : ∀ a ∈ l, f a = some (g a)) : l.filterMap f = l.map g := by
  induction l with
  | nil => rfl
  | cons a t ih =>
    rw [List.filterMap_cons, h a (List.mem_cons_self a t), List.map_cons,
      ih fun b hb => h b (List.mem_cons_of_mem a hb)]

theorem storedSnapshot_intKeyed (prevL : List (Int × Incident)) :
    storedSnapshot (intKeyed prevL) =
      prevL.map fun kv => (intChars kv.1, kv.2) := by
  unfold storedSnapshot intKeyed
  rw [List.map_map]
  rfl

theorem previousIds_intKeyed (prevL : List (Int × Incident))
    (hnd : (prevL.map Prod.fst).Nodup) :
    setOfList ((storedSnapshot (intKeyed prevL)).map fun kv => jsToNumber kv.1) =
      prevL.map fun kv => JsNum.num kv.1 := by
  rw [storedSnapshot_intKeyed, List.map_map]
  have hmap : prevL.map ((fun kv : JStr × Incident => jsToNumber kv.1) ∘
      fun kv : Int × Incident => (intChars kv.1, kv.2)) =
      prevL.map fun kv => JsNum.num kv.1 := by
    apply List.map_congr_left
    intro kv _
    exact jsToNumber_intChars kv.1
  rw [hmap]
  apply setOfList_of_nodup
  have hrw : (prevL.map fun kv => JsNum.num kv.1) =
      (prevL.map Prod.fst).map JsNum.num := by rw [List.map_map]; rfl
  rw [hrw]
  exact hnd.map fun a b hab => by injection hab

theorem numSetHasId_intKeyed (prevL : List (Int × Incident)) (v : JsId) :
    numSetHasId (prevL.map fun kv => JsNum.num kv.1) v = true ↔
      v ∈ (intKeyed prevL).map Prod.fst := by
  have hkeys : (intKeyed prevL).map Prod.fst =
      prevL.map fun kv => JsId.int kv.1 := by
    unfold intKeyed; rw [List.map_map]; rfl
  rw [hkeys]
  cases v with
  | int m =>
    unfold numSetHasId
    rw [List.any_eq_true]
    constructor
    · rintro ⟨x, hx, hbeq⟩
      obtain ⟨kv, hkv, rfl⟩ := List.mem_map.mp hx
      have h' : kv.1 = m := by injection eq_of_beq hbeq
      exact List.mem_map.mpr ⟨kv, hkv, by rw [h']⟩
    · intro h
      obtain ⟨kv, hkv, he⟩ := List.mem_map.mp h
      injection he with h'
      exact ⟨JsNum.num kv.1, List.mem_map.mpr ⟨kv, hkv, rfl⟩, by simp [h']⟩
  | str s =>
    unfold numSetHasId
    constructor
    · intro h
      cases h
    · intro h
      obtain ⟨kv, _, he⟩ := List.mem_map.mp h
      cases he

theorem idSetHasNum_mem (ids : List JsId) (k : Int) :
    idSetHasNum (setOfList ids) (JsNum.num k) = true ↔ JsId.int k ∈ ids := by
  unfold idSetHasNum
  simp only [List.any_eq_true, beq_iff_eq]
  constructor
  · rintro ⟨c, hc, rfl⟩
    exact (mem_setOfList ids _).mp hc
  · intro h
    exact ⟨JsId.int k, (mem_setOfList ids _).mpr h, rfl⟩

theorem lookup_storedSnapshot (prevL : List (Int × Incident))
    (hnd : (prevL.map Prod.fst).Nodup) (k : Int) (v : Incident)
    (hmem : (k, v) ∈ prevL) :
    lookupKey (storedSnapshot (intKeyed prevL)) (intChars k) = some v := by
  rw [storedSnapshot_intKeyed]
  induction prevL with
  | nil => cases hmem
  | cons kv t ih =>
    have hnd' : kv.1 ∉ t.map Prod.fst ∧ (t.map Prod.fst).Nodup := by
      rw [List.map_cons] at hnd
      exact List.nodup_cons.mp hnd
    rw [List.map_cons]
    unfold lookupKey
    rw [List.lookup]
    rcases List.mem_cons.mp hmem with heq | hmem'
    · rw [← heq]
      simp
    · have hk : ¬(k = kv.1) := by
        intro he
        subst he
        exact hnd'.1 (List.mem_map.mpr ⟨(kv.1, v), hmem', rfl⟩)
      have hbeq : (intChars k == intChars kv.1) = false := by
        rw [beq_eq_false_iff_ne]
        intro he
        exact hk (intChars_injective he)
      rw [hbeq]
      exact ih hnd'.2 hmem'

/-- The central diff correctness result: on an integer-keyed previous
snapshot (stored under stringified keys, as the monitor saves it), the code's
diff coincides with the spec's set-difference semantics, for any current
incident sequence. -/
theorem computeDiff_int_keyed (prevL : List (Int × Incident))
    (current : List Incident) (hnd : (prevL.map Prod.fst).Nodup) :
    computeDiff (storedSnapshot (intKeyed prevL)) current =
      { newIncidents := specNewIncidents (intKeyed prevL) current
        clearedIncidents := specClearedIncidents (intKeyed prevL) current } := by
  have hprev := previousIds_intKeyed prevL hnd
  simp only [computeDiff, hprev]
  have hcode : ((prevL.map fun kv => JsNum.num kv.1).filter fun v =>
      !idSetHasNum (setOfList (current.map (·.ObjectId))) v).filterMap
        (fun v => lookupKey (storedSnapshot (intKeyed prevL)) (jsNumKey v)) =
      (prevL.filter fun kv =>
        !idSetHasNum (setOfList (current.map (·.ObjectId)))
          (JsNum.num kv.1)).map fun kv => kv.2 := by
    rw [filter_of_map, List.filterMap_map]
    apply filterMap_eq_map_of
    intro kv hkv
    have hkv' : kv ∈ prevL := List.mem_of_mem_filter hkv
    show lookupKey (storedSnapshot (intKeyed prevL)) (intChars kv.1) = some kv.2
    exact lookup_storedSnapshot prevL hnd kv.1 kv.2 (by rwa [Prod.mk.eta])
  have hspec : specClearedIncidents (intKeyed prevL) current =
      (prevL.filter fun kv =>
        decide (JsId.int kv.1 ∉ current.map (·.ObjectId))).map fun kv => kv.2 := by
    unfold specClearedIncidents intKeyed
    rw [filter_of_map, List.map_map]
    rfl
  congr 1
  · unfold specNewIncidents
    apply List.filter_congr
    intro i _
    cases hb : numSetHasId (prevL.map fun kv => JsNum.num kv.1) i.ObjectId with
    | false =>
      have hni : i.ObjectId ∉ (intKeyed prevL).map Prod.fst := by
        rw [← numSetHasId_intKeyed prevL i.ObjectId, hb]
        simp
      simp [hni]
    | true =>
      have hmi : i.ObjectId ∈ (intKeyed prevL).map Prod.fst :=
        (numSetHasId_intKeyed prevL i.ObjectId).mp hb
      simp [hmi]
  · rw [hcode, hspec]
    congr 1
    apply List.filter_congr
    intro kv _
    cases hb : idSetHasNum (setOfList (current.map (·.ObjectId)))
        (JsNum.num kv.1) with
    | false =>
      have hni : JsId.int kv.1 ∉ current.map (·.ObjectId) := by
        rw [← idSetHasNum_mem (current.map (·.ObjectId)) kv.1, hb]
        simp
      simp [hni]
    | true =>
      have hmi : JsId.int kv.1 ∈ current.map (·.ObjectId) :=
        (idSetHasNum_mem (current.map (·.ObjectId)) kv.1).mp hb
      simp [hmi]

/-- C4 counterexample: the claim quantifies over maps keyed by an integer
**or string** raw identifier.  With the string identifier "A1", the stored
JSON key "A1" is coerced through `Number` to `NaN`, so the code reports the
still-present incident as new (the spec diff does not), and when the
incident disappears the code's cleared list misses it (the spec diff
returns it). -/
theorem claim_C4_counterexample :
    (computeDiff (storedSnapshot [(JsId.str "A1".toList, demoStrIncident)])
        [demoStrIncident]).newIncidents = [demoStrIncident] ∧
    specNewIncidents [(JsId.str "A1".toList, demoStrIncident)]
        [demoStrIncident] = [] ∧
    (computeDiff (storedSnapshot [(JsId.str "A1".toList, demoStrIncident)])
        []).clearedIncidents = [] ∧
    specClearedIncidents [(JsId.str "A1".toList, demoStrIncident)] [] =
      [demoStrIncident] := by
  exact ⟨by decide, by decide, by decide, by decide⟩

/-- C4 amended: the claim holds once every identifier of the previous
snapshot is an integer (the keys round-trip through `Number`); the current
sequence is unrestricted.  `newIncidents` are exactly the current incidents
whose id is not a key of the previous snapshot, and `clearedIncidents` are
exactly the previous snapshot's full records whose id is not among the
current ids. -/
theorem claim_C4_diff_int_ids :
    ∀ (prevL : List (Int × Incident)) (current : List Incident),
      (prevL.map Prod.fst).Nodup →
      computeDiff (storedSnapshot (intKeyed prevL)) current =
        { newIncidents := specNewIncidents (intKeyed prevL) current
          clearedIncidents := specClearedIncidents (intKeyed prevL) current } := by
  intro prevL current hnd
  exact computeDiff_int_keyed prevL current hnd

/-- C4 witness: the amended diff at a concrete two-entry integer-keyed
snapshot against a one-incident current poll. -/
theorem claim_C4_witness :
    computeDiff (storedSnapshot (intKeyed
        [(9, demoGoodIncident), (11, demoStrIncident)])) [demoGoodIncident] =
      { newIncidents := specNewIncidents (intKeyed
          [(9, demoGoodIncident), (11, demoStrIncident)]) [demoGoodIncident]
        clearedIncidents := specClearedIncidents (intKeyed
          [(9, demoGoodIncident), (11, demoStrIncident)]) [demoGoodIncident] } :=
  claim_C4_diff_int_ids [(9, demoGoodIncident), (11, demoStrIncident)]
    [demoGoodIncident] (by decide)

/-- C10 counterexample: the claim says a payload without a `features` array
makes the monitor report **every** previously tracked incident as cleared.
With the string identifier "A1" (allowed by the data model) tracked in the
previous snapshot, the featureless poll yields an empty `clearedIncidents`
list — the tracked record is silently dropped, because its stored key
coerces through `Number` to `NaN` and the lookup misses. -/
theorem claim_C10_counterexample :
    (pollStep { features := none }
        { incidents := storedSnapshot [(JsId.str "A1".toList, demoStrIncident)]
          lastUpdate := some 5 } 77).1.clearedIncidents = [] ∧
    (storedSnapshot [(JsId.str "A1".toList, demoStrIncident)]).map Prod.snd =
      [demoStrIncident] := by
  exact ⟨by decide, by decide⟩

/-- C10 amended: a well-formed payload with no `features` array raises no
feed-parse error — it normalises to the empty snapshot, the poll reports no
new incidents, and the saved state is overwritten with an empty incident map
and the poll time; provided every identifier of the previous snapshot is an
integer, every previously tracked incident is reported as cleared (a
string-keyed one is dropped, as the counterexample shows). -/
theorem claim_C10_missing_features_clears_all :
    ∀ (prevL : List (Int × Incident)) (lu : Option Int) (now : Int),
      (prevL.map Prod.fst).Nodup →
      pollStep { features := none }
          { incidents := storedSnapshot (intKeyed prevL), lastUpdate := lu } now =
        ({ newIncidents := [], clearedIncidents := prevL.map Prod.snd },
          { incidents := [], lastUpdate := some now }) := by
  intro prevL lu now hnd
  unfold pollStep normalizeIncidents buildNewState
  simp only [List.foldl_nil]
  have hdiff := computeDiff_int_keyed prevL [] hnd
  rw [hdiff]
  have hnew : specNewIncidents (intKeyed prevL) [] = [] := rfl
  have hclr : specClearedIncidents (intKeyed prevL) [] =
      prevL.map Prod.snd := by
    unfold specClearedIncidents intKeyed
    rw [List.filter_eq_self.mpr (by intro kv _; simp), List.map_map]
    rfl
  rw [hnew, hclr]

/-- C10 witness: a concrete two-incident snapshot against a featureless
payload. -/
theorem claim_C10_witness :
    pollStep { features := none }
        { incidents := storedSnapshot (intKeyed
            [(9, demoGoodIncident), (11, demoStrIncident)])
          lastUpdate := some 42 } 77 =
      ({ newIncidents := []
         clearedIncidents := [demoGoodIncident, demoStrIncident] },
        { incidents := [], lastUpdate := some 77 }) :=
  claim_C10_missing_features_clears_all
    [(9, demoGoodIncident), (11, demoStrIncident)] (some 42) 77 (by decide)

/-! Claim C5: the bounded status renderer. -/

theorem sum_map_len_add_one (xs : List JStr) :
    (xs.map fun l => l.length + 1).sum = (xs.map List.length).sum + xs.length := by
  induction xs with
  | nil => rfl
  | cons a t ih =>
    simp only [List.map_cons, List.sum_cons, List.length_cons, ih]
    omega

theorem joinNL_length :
    ∀ l : List JStr, l ≠ [] →
      (joinNL l).length + 1 = (l.map List.length).sum + l.length := by
  intro l
  induction l with
  | nil => intro h; exact absurd rfl h
  | cons s rest ih =>
    intro _
    cases rest with
    | nil => simp [joinNL]
    | cons a t =>
      have h := ih (by simp)
      simp only [joinNL, List.length_append, List.length_cons, List.map_cons,
        List.sum_cons] at h ⊢
      omega

theorem fillLines_count (lines : List JStr) :
    ∀ c, (fillLines lines c).2 =
      c + ((fillLines lines c).1.map fun l => l.length + 1).sum := by
  induction lines with
  | nil => intro c; simp [fillLines]
  | cons l rest ih =>
    intro c
    by_cases h : c + (l.length + 1) + 30 < DISCORD_LIMIT
    · simp only [fillLines, if_pos h, List.map_cons, List.sum_cons]
      rw [ih (c + (l.length + 1))]
      omega
    · simp [fillLines, h]

theorem fillLines_take (lines : List JStr) :
    ∀ c, (fillLines lines c).1 =
      lines.take (fillLines lines c).1.length := by
  induction lines with
  | nil => intro c; rfl
  | cons l rest ih =>
    intro c
    by_cases h : c + (l.length + 1) + 30 < DISCORD_LIMIT
    · simp only [fillLines, if_pos h, List.length_cons, List.take_succ_cons]
      rw [← ih (c + (l.length + 1))]
    · simp [fillLines, h]

theorem fillLines_guard (lines : List JStr) :
    ∀ c, (fillLines lines c).1 ≠ [] →
      (fillLines lines c).2 + 30 < DISCORD_LIMIT := by
  induction lines with
  | nil => intro c hc; exact absurd rfl hc
  | cons l rest ih =>
    intro c hc
    by_cases h : c + (l.length + 1) + 30 < DISCORD_LIMIT
    · simp only [fillLines, if_pos h]
      by_cases hr : (fillLines rest (c + (l.length + 1))).1 = []
      · have hcount := fillLines_count rest (c + (l.length + 1))
        rw [hr] at hcount
        simp at hcount
        rw [hcount]
        exact h
      · exact ih (c + (l.length + 1)) hr
    · rw [fillLines, if_neg h] at hc
      exact absurd rfl hc

theorem moreMarker_length_le (m : Nat) (h : m ≤ 100) :
    (moreMarker m).length ≤ 18 := by
  unfold moreMarker
  simp only [List.length_append]
  have h1 : ("\n_...and ".toList).length = 9 := by decide
  have h2 : (" more_".toList).length = 6 := by decide
  have h3 := natChars_length_le 3 m (by omega)
  omega

theorem statusHeader_length_le (n : Nat) (h : n ≤ 100) :
    (statusHeader n).length ≤ 56 := by
  unfold statusHeader
  simp only [List.length_append]
  have h1 : ("# 🚔 Nashville Active Dispatch\n**".toList).length = 32 := by decide
  have h2 := natChars_length_le 3 n (by omega)
  have h3 : (" active incident".toList).length = 16 := by decide
  have h4 : (if n ≠ 1 then ['s'] else ([] : JStr)).length ≤ 1 := by
    split <;> simp
  have h5 : ("**\n\n".toList).length = 4 := by decide
  omega

theorem statusFooter_length_le (ts : JStr) (h : ts.length ≤ 60) :
    (statusFooter ts).length ≤ 145 := by
  unfold statusFooter
  simp only [List.length_append]
  have h1 : ("\n---\n_Last polled: ".toList).length = 19 := by decide
  have h2 : (" CT_\n_Updates every 2 minutes | Data: Nashville Open Data Portal_".toList).length ≤ 66 := by
    decide
  omega

/-- C5: whenever the full status text would exceed the 2000-character Discord
budget, the rendered output stays within the budget, the shown lines are a
proper prefix of the incident lines, and the trailing marker's count is
exactly the number of incident lines omitted. -/
theorem claim_C5_render_within_budget :
    ∀ (lines : List JStr) (ts : JStr),
      lines ≠ [] →
      lines.length ≤ 100 →
      ts.length ≤ 60 →
      DISCORD_LIMIT <
        (statusHeader lines.length ++ joinNL lines ++ statusFooter ts).length →
      (renderStatus lines ts).length ≤ DISCORD_LIMIT ∧
      ∃ shown,
        shown < lines.length ∧
        (fillLines lines ((statusHeader lines.length).length +
            (statusFooter ts).length)).1 = lines.take shown ∧
        renderStatus lines ts =
          statusHeader lines.length ++
            joinNL (lines.take shown ++ [moreMarker (lines.length - shown)]) ++
            statusFooter ts := by
  intro lines ts hne h100 hts hex
  have hie : lines.isEmpty = false := by
    cases lines with
    | nil => exact absurd rfl hne
    | cons a t => rfl
  have hcount := fillLines_count lines
    ((statusHeader lines.length).length + (statusFooter ts).length)
  have hpre := fillLines_take lines
    ((statusHeader lines.length).length + (statusFooter ts).length)
  -- the accepted lines cannot be all of them, else the full text fits
  have hnotall :
      (fillLines lines ((statusHeader lines.length).length +
        (statusFooter ts).length)).1 ≠ lines := by
    intro hall
    have hguard := fillLines_guard lines
      ((statusHeader lines.length).length + (statusFooter ts).length)
      (by rw [hall]; exact hne)
    rw [hcount, hall] at hguard
    have hjoin := joinNL_length lines hne
    have hlen : (statusHeader lines.length ++ joinNL lines ++
        statusFooter ts).length =
        (statusHeader lines.length).length + (joinNL lines).length +
          (statusFooter ts).length := by
      simp only [List.length_append]
    have hsum := sum_map_len_add_one lines
    rw [hlen] at hex
    unfold DISCORD_LIMIT at hguard hex
    omega
  have hle :
      (fillLines lines ((statusHeader lines.length).length +
        (statusFooter ts).length)).1.length ≤ lines.length := by
    have h := congrArg List.length hpre
    rw [List.length_take] at h
    omega
  have hlt :
      (fillLines lines ((statusHeader lines.length).length +
        (statusFooter ts).length)).1.length < lines.length := by
    rcases Nat.lt_or_ge ((fillLines lines ((statusHeader lines.length).length +
        (statusFooter ts).length)).1.length) lines.length with h | h
    · exact h
    · exfalso
      apply hnotall
      have heq : (fillLines lines ((statusHeader lines.length).length +
          (statusFooter ts).length)).1.length = lines.length := by omega
      rw [hpre, heq, List.take_length]
  have hing : ¬ (lines.isEmpty = true) := by
    rw [hie]
    exact Bool.false_ne_true
  have hrender : renderStatus lines ts =
      statusHeader lines.length ++
        joinNL ((fillLines lines ((statusHeader lines.length).length +
            (statusFooter ts).length)).1 ++
          [moreMarker (lines.length -
            (fillLines lines ((statusHeader lines.length).length +
              (statusFooter ts).length)).1.length)]) ++
        statusFooter ts := by
    simp only [renderStatus]
    rw [if_neg hing, if_pos hlt]
  have hout_len : (renderStatus lines ts).length =
      (fillLines lines ((statusHeader lines.length).length +
        (statusFooter ts).length)).2 +
      (moreMarker (lines.length -
        (fillLines lines ((statusHeader lines.length).length +
          (statusFooter ts).length)).1.length)).length := by
    rw [hrender]
    simp only [List.length_append]
    have hjoin2 := joinNL_length
      ((fillLines lines ((statusHeader lines.length).length +
          (statusFooter ts).length)).1 ++
        [moreMarker (lines.length -
          (fillLines lines ((statusHeader lines.length).length +
            (statusFooter ts).length)).1.length)]) (by simp)
    rw [List.map_append, List.sum_append] at hjoin2
    simp only [List.map_cons, List.map_nil, List.sum_cons, List.sum_nil,
      List.length_append, List.length_cons, List.length_nil] at hjoin2
    have hsumA := sum_map_len_add_one
      (fillLines lines ((statusHeader lines.length).length +
        (statusFooter ts).length)).1
    rw [hcount]
    omega
  have hM := moreMarker_length_le (lines.length -
    (fillLines lines ((statusHeader lines.length).length +
      (statusFooter ts).length)).1.length) (by omega)
  have hbound : (renderStatus lines ts).length ≤ DISCORD_LIMIT := by
    by_cases hA : (fillLines lines ((statusHeader lines.length).length +
        (statusFooter ts).length)).1 = []
    · have hc' : (fillLines lines ((statusHeader lines.length).length +
          (statusFooter ts).length)).2 =
          (statusHeader lines.length).length + (statusFooter ts).length := by
        rw [hcount, hA]
        simp
      have hH := statusHeader_length_le lines.length h100
      have hF := statusFooter_length_le ts hts
      rw [hout_len, hc']
      unfold DISCORD_LIMIT
      omega
    · have hg := fillLines_guard lines
        ((statusHeader lines.length).length + (statusFooter ts).length) hA
      rw [hout_len]
      unfold DISCORD_LIMIT at hg ⊢
      omega
  refine ⟨hbound, (fillLines lines ((statusHeader lines.length).length +
      (statusFooter ts).length)).1.length, hlt, hpre, ?_⟩
  rw [← hpre]
  exact hrender

/-- C5 witness: three 700-character lines overflow the budget; the rendered
output is within 2000 characters and ends with a correct omission count. -/
theorem claim_C5_witness :
    (renderStatus demoLines demoTimestamp).length ≤ DISCORD_LIMIT ∧
    ∃ shown,
      shown < demoLines.length ∧
      (fillLines demoLines ((statusHeader demoLines.length).length +
          (statusFooter demoTimestamp).length)).1 = demoLines.take shown ∧
      renderStatus demoLines demoTimestamp =
        statusHeader demoLines.length ++
          joinNL (demoLines.take shown ++
            [moreMarker (demoLines.length - shown)]) ++
          statusFooter demoTimestamp := by
  have h1 : (joinNL demoLines).length = 2102 := by
    show (List.replicate 700 'a' ++ '\n' ::
        (List.replicate 700 'b' ++ '\n' :: List.replicate 700 'c')).length = 2102
    rw [List.length_append, List.length_cons, List.length_append,
      List.length_cons, List.length_replicate, List.length_replicate,
      List.length_replicate]
  exact claim_C5_render_within_budget demoLines demoTimestamp (by decide)
    (by decide) (by decide)
    (by simp only [List.length_append, h1]; unfold DISCORD_LIMIT; omega)

end Dispatch
